import Mathlib

/-!
# Verification of the multi-agent fire-search core

Shallow embedding of the belief representation, observation update, belief
fusion and per-tick orchestration of the decentralized fire-search
simulation (`belief_state.py`, `environment.py`, `fire_environment.py`).

Grids are `N × N`; a belief is modelled as a function `Nat → Nat → ℚ`
together with its grid size (only indices below the grid size are
meaningful, matching the numpy array of shape `(N, N)`).  Machine floats
are modelled as exact rationals.
-/

namespace BadComms

/-- Membership of cell `(i, j)` in the square sensing footprint of a drone at
`(x, y)` with window size `w`, intersected with the `N × N` grid.  This is the
pair of index ranges `range(max(0, x - w//2), min(N, x + w//2 + 1))` used by
`BeliefState.update_with_observation`; natural subtraction `x - w / 2`
coincides with `max(0, x - w//2)` on integers. -/
def inFootprint (N x y w i j : Nat) : Bool :=
  decide (x - w / 2 ≤ i) && decide (i < min N (x + w / 2 + 1)) &&
  decide (y - w / 2 ≤ j) && decide (j < min N (y + w / 2 + 1))

/-- `belief.sum()`: the sum of an `N × N` belief grid. -/
def gridSum (N : Nat) (f : Nat → Nat → ℚ) : ℚ :=
  ∑ i ∈ Finset.range N, ∑ j ∈ Finset.range N, f i j

/-- The set of grid cells inside the sensing footprint. -/
def footprintCells (N x y w : Nat) : Finset (Nat × Nat) :=
  (Finset.range N ×ˢ Finset.range N).filter
    (fun c => inFootprint N x y w c.1 c.2 = true)

/-- `BeliefState` from `belief_state.py`: a probability grid over fire
locations, plus the `fire_found` flag and optional `fire_location`. -/
structure BeliefState where
  grid_size : Nat
  belief : Nat → Nat → ℚ
  fire_found : Bool
  fire_location : Option (Nat × Nat)

/-- `BeliefState.__init__`: uniform prior, no fire found, no location. -/
def BeliefState.init (N : Nat) : BeliefState where
  grid_size := N
  belief := fun _ _ => 1 / ((N : ℚ) * N)
  fire_found := false
  fire_location := none

/-- `BeliefState.update_with_observation`: Bayesian update from a local
observation.  On a positive observation the grid is zeroed, the footprint
cells are set to `1.0` and the grid is divided by its sum, and `fire_found`
is set; on a negative observation the footprint cells are zeroed and the
grid is divided by its sum only when that sum is positive. -/
def BeliefState.update_with_observation (b : BeliefState) (pos : Nat × Nat)
    (w : Nat) (fire_observed : Bool) : BeliefState :=
  if fire_observed then
    let b1 : Nat → Nat → ℚ := fun i j =>
      if inFootprint b.grid_size pos.1 pos.2 w i j then 1 else 0
    let s := gridSum b.grid_size b1
    { b with belief := fun i j => b1 i j / s, fire_found := true }
  else
    let b1 : Nat → Nat → ℚ := fun i j =>
      if inFootprint b.grid_size pos.1 pos.2 w i j then 0 else b.belief i j
    let s := gridSum b.grid_size b1
    if 0 < s then { b with belief := fun i j => b1 i j / s }
    else { b with belief := b1 }

/-- `BeliefState.merge_with_other_belief`: if the peer found the fire, adopt
its belief, flag and location outright; otherwise take the elementwise
weighted average and renormalize when its sum is positive. -/
def BeliefState.merge_with_other_belief (b other : BeliefState)
    (weight : ℚ) : BeliefState :=
  if other.fire_found then
    { b with belief := other.belief, fire_found := true,
             fire_location := other.fire_location }
  else
    let nb : Nat → Nat → ℚ := fun i j =>
      weight * b.belief i j + (1 - weight) * other.belief i j
    let s := gridSum b.grid_size nb
    if 0 < s then { b with belief := fun i j => nb i j / s }
    else { b with belief := nb }

/-- The belief grid flattened in row-major (C) order, as numpy's `argmax`
sees it: flat index `k` holds cell `(k / N, k % N)`. -/
def flattenBelief (b : BeliefState) : List ℚ :=
  (List.range (b.grid_size * b.grid_size)).map
    (fun k => b.belief (k / b.grid_size) (k % b.grid_size))

/-- `a` is a maximum of the list `l`. -/
def isListMax (l : List ℚ) (a : ℚ) : Bool :=
  l.all (fun c => decide (c ≤ a))

/-- `np.argmax`: the index of the first occurrence of the maximum value of
the flattened array (numpy's documented tie-breaking). -/
def npArgmax (l : List ℚ) : Nat :=
  l.findIdx (fun a => isListMax l a)

/-- `BeliefState.get_most_likely_location`:
`np.unravel_index(np.argmax(belief), (N, N))`. -/
def BeliefState.get_most_likely_location (b : BeliefState) : Nat × Nat :=
  let k := npArgmax (flattenBelief b)
  (k / b.grid_size, k % b.grid_size)

/-- Movement mapping of `Drone.action` in `fire_environment.py`:
`0: stay, 1: up, 2: down, 3: left, 4: right, 5: communicate`; moves are
clamped to `[0, N-1]` by `min`/`max` (natural subtraction models
`max(0, · - 1)`). -/
def moveAction (N x y : Nat) (action : Nat) : Nat × Nat :=
  if action = 1 then (x, min (N - 1) (y + 1))
  else if action = 2 then (x, y - 1)
  else if action = 3 then (x - 1, y)
  else if action = 4 then (min (N - 1) (x + 1), y)
  else (x, y)

/-- `Drone.observe` in `fire_environment.py`: the fire is observed iff it
lies in the window `[x - w//2, x + w//2] × [y - w//2, y + w//2]` (natural
subtraction models the clamp of the integer comparison at `0`, since fire
coordinates are non-negative). -/
def observeBool (x y w : Nat) (fire_pos : Nat × Nat) : Bool :=
  (decide (x - w / 2 ≤ fire_pos.1) && decide (fire_pos.1 ≤ x + w / 2)) &&
  (decide (y - w / 2 ≤ fire_pos.2) && decide (fire_pos.2 ≤ y + w / 2))

/-- The `Drone` of `fire_environment.py`: position, window, clock and
state history. -/
structure Drone where
  grid_size : Nat
  window_size : Nat
  time : ℚ
  dt : ℚ
  x : Nat
  y : Nat
  fire_found : Bool
  history : List (Nat × Nat × Bool × ℚ)

/-- `Drone.observe` of `fire_environment.py` at the drone's own position. -/
def Drone.observe (d : Drone) (fire_pos : Nat × Nat) : Bool :=
  observeBool d.x d.y d.window_size fire_pos

/-- `Drone.action` of `fire_environment.py`: move (clamped), observe at the
new position, advance the clock, append the new state to the history.  The
Python method mutates the drone and returns `None`; here the updated drone
is returned. -/
def Drone.action (d : Drone) (action : Nat) (fire_pos : Nat × Nat) : Drone :=
  let p := moveAction d.grid_size d.x d.y action
  let fo := observeBool p.1 p.2 d.window_size fire_pos
  let t := d.time + d.dt
  { d with x := p.1, y := p.2, fire_found := fo, time := t,
           history := d.history ++ [(p.1, p.2, fo, t)] }

/-- `TelemetryPacket`: the report a communicating agent broadcasts. -/
structure TelemetryPacket where
  sender_id : Nat
  position : Nat × Nat
  window_size : Nat
  fire_observed : Bool
  time : ℚ

/-- The full agent of the simulation (`drone.py`), which also owns an id and
a `BeliefState`. -/
structure Agent where
  drone_id : Nat
  grid_size : Nat
  window_size : Nat
  time : ℚ
  dt : ℚ
  x : Nat
  y : Nat
  belief_state : BeliefState

/-- Modelled from the spec: the telemetry-emitting `act` of the full agent
class lives in `drone.py`, which is not under `src/` (only its callers
`environment.py` and `experiments.py` are).  Following §4.2 of the spec:
move with the clamped mapping of `fire_environment.py`, sense at the new
position, update the belief, advance the clock, and return a
`TelemetryPacket{senderId, position, windowSize, fireObserved, time}` iff
the action is `5` (communicate). -/
def Agent.act (d : Agent) (actionId : Nat) (fire_pos : Nat × Nat) :
    Agent × Option TelemetryPacket :=
  let p := moveAction d.grid_size d.x d.y actionId
  let fo := observeBool p.1 p.2 d.window_size fire_pos
  let bs := d.belief_state.update_with_observation p d.window_size fo
  let t := d.time + d.dt
  let d1 : Agent := { d with x := p.1, y := p.2, belief_state := bs, time := t }
  if actionId = 5 then
    (d1, some { sender_id := d.drone_id, position := p,
                window_size := d.window_size, fire_observed := fo, time := t })
  else (d1, none)

/-- The per-tick outcome of one drone's `action` call, as the orchestrator
`SearchEnv.step` of `environment.py` observes it: the chosen action id, the
optional returned packet, and the drone's post-action position and clock. -/
structure DroneStep where
  drone_id : Nat
  action : Nat
  packet : Option TelemetryPacket
  x : Nat
  y : Nat
  time : ℚ

/-- The orchestrator state of `SearchEnv` in `environment.py`. -/
structure EnvState where
  grid_size : Nat
  fire_pos : Nat × Nat
  communication_cost : ℚ
  movement_cost : ℚ
  total_cost : ℚ
  fire_extinguished : Bool
  time_to_extinguish : Option ℚ
  total_communications : Nat

/-- The action-execution loop of `SearchEnv.step`: collect the returned
packets, add `communication_cost` per packet (counting it), else
`movement_cost` for any non-`stay` action. -/
def actPhase (env : EnvState) (drones : List DroneStep) :
    List TelemetryPacket × ℚ × Nat :=
  drones.foldl
    (fun acc d =>
      match d.packet with
      | some p => (acc.1 ++ [p], acc.2.1 + env.communication_cost, acc.2.2 + 1)
      | none =>
        if d.action ≠ 0 then (acc.1, acc.2.1 + env.movement_cost, acc.2.2)
        else acc)
    ([], 0, 0)

/-- The termination scan of `SearchEnv.step`: for each drone co-located with
the fire, if the fire is not yet extinguished, set the flag and freeze
`time_to_extinguish` at that drone's clock. -/
def terminationScan (drones : List DroneStep) (fire_pos : Nat × Nat)
    (st : Bool × Option ℚ) : Bool × Option ℚ :=
  drones.foldl
    (fun st d =>
      if d.x = fire_pos.1 ∧ d.y = fire_pos.2 then
        if st.1 = false then (true, some d.time) else st
      else st)
    st

/-- `SearchEnv.step` of `environment.py`: execute all actions and tally the
tick cost and communications, distribute the collected packets (which only
mutates the drones, not the orchestrator state), scan for a drone on the
fire, accumulate `total_cost`, and return `(step_cost, fire_extinguished)`
together with the updated orchestrator state. -/
def SearchEnv.step (env : EnvState) (drones : List DroneStep) :
    EnvState × ℚ × Bool :=
  let ap := actPhase env drones
  let step_cost := ap.2.1
  let ts := terminationScan drones env.fire_pos
    (env.fire_extinguished, env.time_to_extinguish)
  let env1 : EnvState :=
    { env with
      total_communications := env.total_communications + ap.2.2,
      fire_extinguished := ts.1,
      time_to_extinguish := ts.2,
      total_cost := env.total_cost + step_cost }
  (env1, step_cost, ts.1)

/-- A concrete 2×2 peer belief that has found the fire (used to exercise the
adoption branch of the merge on a closed instance). -/
def peerFound2 : BeliefState :=
  { BeliefState.init 2 with fire_found := true, fire_location := some (0, 1) }

/-- A concrete drone at the corner column of a 5×5 grid (used to exercise
the boundary clamps on a closed instance). -/
def drone04 : Drone :=
  { grid_size := 5, window_size := 3, time := 0, dt := 1 / 20, x := 0, y := 4,
    fire_found := false, history := [] }

/-- A concrete agent at the center of a 5×5 grid (used to exercise the
telemetry emission on a closed instance). -/
def agent22 : Agent :=
  { drone_id := 0, grid_size := 5, window_size := 3, time := 0, dt := 1 / 20,
    x := 2, y := 2, belief_state := BeliefState.init 5 }

/-- A concrete orchestrator state with the fire not yet extinguished. -/
def envFixture : EnvState :=
  { grid_size := 5, fire_pos := (1, 2), communication_cost := 1,
    movement_cost := 1 / 10, total_cost := 0, fire_extinguished := false,
    time_to_extinguish := none, total_communications := 0 }

/-- A concrete orchestrator state whose fire is already extinguished. -/
def envDone : EnvState :=
  { grid_size := 5, fire_pos := (1, 2), communication_cost := 1,
    movement_cost := 1 / 10, total_cost := 3, fire_extinguished := true,
    time_to_extinguish := some 2, total_communications := 4 }

/-- A concrete per-tick drone outcome co-located with `envFixture`'s fire. -/
def hitStep : DroneStep :=
  { drone_id := 0, action := 4, packet := none, x := 1, y := 2, time := 3 / 4 }

/-! ## Helper lemmas -/

lemma gridSum_def_product (N : Nat) (f : Nat → Nat → ℚ) :
    gridSum N f = ∑ c ∈ Finset.range N ×ˢ Finset.range N, f c.1 c.2 := by
  rw [gridSum, Finset.sum_product']

lemma gridSum_div (N : Nat) (f : Nat → Nat → ℚ) (c : ℚ) :
    gridSum N (fun i j => f i j / c) = gridSum N f / c := by
  simp only [gridSum, Finset.sum_div]

lemma gridSum_congr (N : Nat) (f g : Nat → Nat → ℚ)
    (h : ∀ i < N, ∀ j < N, f i j = g i j) : gridSum N f = gridSum N g := by
  unfold gridSum
  refine Finset.sum_congr rfl (fun i hi => Finset.sum_congr rfl (fun j hj => ?_))
  exact h i (Finset.mem_range.mp hi) j (Finset.mem_range.mp hj)

lemma gridSum_indicator (N x y w : Nat) :
    gridSum N (fun i j => if inFootprint N x y w i j then (1 : ℚ) else 0) =
      (footprintCells N x y w).card := by
  rw [gridSum_def_product, footprintCells, Finset.sum_boole]

lemma center_mem_footprintCells (N x y w : Nat) (hx : x < N) (hy : y < N) :
    (x, y) ∈ footprintCells N x y w := by
  simp only [footprintCells, Finset.mem_filter, Finset.mem_product, Finset.mem_range,
    inFootprint, Bool.and_eq_true, decide_eq_true_eq]
  omega

lemma footprintCells_card_pos (N x y w : Nat) (hx : x < N) (hy : y < N) :
    0 < (footprintCells N x y w).card :=
  Finset.card_pos.mpr ⟨(x, y), center_mem_footprintCells N x y w hx hy⟩

/-- The positive-observation branch of `update_with_observation`, unfolded. -/
lemma update_true_eq (b : BeliefState) (pos : Nat × Nat) (w : Nat) :
    b.update_with_observation pos w true =
      { b with
        belief := fun i j =>
          (if inFootprint b.grid_size pos.1 pos.2 w i j then (1 : ℚ) else 0) /
            gridSum b.grid_size
              (fun i j => if inFootprint b.grid_size pos.1 pos.2 w i j then (1 : ℚ) else 0),
        fire_found := true } := rfl

/-- The negative-observation branch of `update_with_observation`, unfolded. -/
lemma update_false_eq (b : BeliefState) (pos : Nat × Nat) (w : Nat) :
    b.update_with_observation pos w false =
      (if 0 < gridSum b.grid_size
            (fun i j => if inFootprint b.grid_size pos.1 pos.2 w i j then 0 else b.belief i j) then
        { b with
          belief := fun i j =>
            (if inFootprint b.grid_size pos.1 pos.2 w i j then 0 else b.belief i j) /
              gridSum b.grid_size
                (fun i j => if inFootprint b.grid_size pos.1 pos.2 w i j then 0 else b.belief i j) }
      else
        { b with
          belief := fun i j =>
            if inFootprint b.grid_size pos.1 pos.2 w i j then 0 else b.belief i j }) := rfl

/-! ## Claims -/

/-- **C1.** For every `BeliefState`, every in-bounds position `(x, y)` and
every window size `1 ≤ w ≤ N`, after `update_with_observation` with
`fire_observed = true` — whatever the prior belief was — the belief is
uniform (`1 / k`) over the footprint cells, `0` elsewhere, sums to `1`, and
`fire_found` is `true`, where `k` is the number of footprint cells. -/
theorem fire_observation_uniform_on_footprint (b : BeliefState) (x y w : Nat)
    (hx : x < b.grid_size) (hy : y < b.grid_size) (hw1 : 1 ≤ w)
    (hwN : w ≤ b.grid_size) :
    (b.update_with_observation (x, y) w true).fire_found = true ∧
    (∀ i < b.grid_size, ∀ j < b.grid_size,
      (b.update_with_observation (x, y) w true).belief i j =
        if inFootprint b.grid_size x y w i j then
          1 / ((footprintCells b.grid_size x y w).card : ℚ) else 0) ∧
    gridSum b.grid_size (b.update_with_observation (x, y) w true).belief = 1 := by
  have hk : 0 < (footprintCells b.grid_size x y w).card :=
    footprintCells_card_pos b.grid_size x y w hx hy
  have hkQ : (0 : ℚ) < ((footprintCells b.grid_size x y w).card : ℚ) := by
    exact_mod_cast hk
  rw [update_true_eq]
  refine ⟨rfl, ?_, ?_⟩
  · intro i _ j _
    simp only
    rw [gridSum_indicator]
    split
    · rw [one_div]
    · exact zero_div _
  · simp only
    rw [gridSum_div, gridSum_indicator, div_self hkQ.ne']

/-- Witness for C1: the 5×5 scenario with the drone at `(2, 2)` and window
size `3` (the spec's concrete scenario; the footprint there has 9 cells). -/
theorem fire_observation_uniform_on_footprint_witness :
    ((BeliefState.init 5).update_with_observation (2, 2) 3 true).fire_found = true ∧
    (∀ i < (BeliefState.init 5).grid_size, ∀ j < (BeliefState.init 5).grid_size,
      ((BeliefState.init 5).update_with_observation (2, 2) 3 true).belief i j =
        if inFootprint (BeliefState.init 5).grid_size 2 2 3 i j then
          1 / ((footprintCells (BeliefState.init 5).grid_size 2 2 3).card : ℚ) else 0) ∧
    gridSum (BeliefState.init 5).grid_size
      ((BeliefState.init 5).update_with_observation (2, 2) 3 true).belief = 1 :=
  fire_observation_uniform_on_footprint (BeliefState.init 5) 2 2 3
    (by decide) (by decide) (by decide) (by decide)

lemma gridSum_eq_zero_iff (N : Nat) (f : Nat → Nat → ℚ)
    (hf : ∀ i < N, ∀ j < N, 0 ≤ f i j) :
    gridSum N f = 0 ↔ ∀ i < N, ∀ j < N, f i j = 0 := by
  rw [gridSum_def_product,
    Finset.sum_eq_zero_iff_of_nonneg (by
      intro c hc
      simp only [Finset.mem_product, Finset.mem_range] at hc
      exact hf c.1 hc.1 c.2 hc.2)]
  constructor
  · intro h i hi j hj
    exact h (i, j) (by simp only [Finset.mem_product, Finset.mem_range]; exact ⟨hi, hj⟩)
  · intro h c hc
    simp only [Finset.mem_product, Finset.mem_range] at hc
    exact h c.1 hc.1 c.2 hc.2

/-- `merge_with_other_belief`, unfolded. -/
lemma merge_eq (b other : BeliefState) (weight : ℚ) :
    b.merge_with_other_belief other weight =
      (if other.fire_found then
        { b with belief := other.belief, fire_found := true,
                 fire_location := other.fire_location }
      else if 0 < gridSum b.grid_size
            (fun i j => weight * b.belief i j + (1 - weight) * other.belief i j) then
        { b with belief := (fun i j =>
            (weight * b.belief i j + (1 - weight) * other.belief i j) /
              gridSum b.grid_size
                (fun i j => weight * b.belief i j + (1 - weight) * other.belief i j)) }
      else
        { b with belief := (fun i j =>
            weight * b.belief i j + (1 - weight) * other.belief i j) }) := rfl

/-- **C3.** For every `BeliefState` with non-negative cells and every
in-bounds position and window size, `update_with_observation` with
`fire_observed = false` zeroes every footprint cell; if the remaining mass
is positive the belief is renormalized to sum `1`, and if it is zero the
belief is left all-zero (detectable by `sum(belief) == 0`); `fire_found`
and `fire_location` are unchanged in both cases. -/
theorem negative_observation_zeroes_footprint (b : BeliefState) (x y w : Nat)
    (hx : x < b.grid_size) (hy : y < b.grid_size)
    (hnn : ∀ i < b.grid_size, ∀ j < b.grid_size, 0 ≤ b.belief i j) :
    (∀ i < b.grid_size, ∀ j < b.grid_size, inFootprint b.grid_size x y w i j = true →
      (b.update_with_observation (x, y) w false).belief i j = 0) ∧
    (0 < gridSum b.grid_size
        (fun i j => if inFootprint b.grid_size x y w i j then 0 else b.belief i j) →
      gridSum b.grid_size (b.update_with_observation (x, y) w false).belief = 1) ∧
    (gridSum b.grid_size
        (fun i j => if inFootprint b.grid_size x y w i j then 0 else b.belief i j) = 0 →
      ∀ i < b.grid_size, ∀ j < b.grid_size,
        (b.update_with_observation (x, y) w false).belief i j = 0) ∧
    (b.update_with_observation (x, y) w false).fire_found = b.fire_found ∧
    (b.update_with_observation (x, y) w false).fire_location = b.fire_location := by
  rw [update_false_eq]
  by_cases hs : 0 < gridSum b.grid_size
      (fun i j => if inFootprint b.grid_size x y w i j then 0 else b.belief i j)
  · rw [if_pos hs]
    refine ⟨?_, ?_, ?_, rfl, rfl⟩
    · intro i _ j _ hfoot
      simp only [hfoot, if_pos]
      exact zero_div _
    · intro _
      simp only
      rw [gridSum_div, div_self hs.ne']
    · intro h0
      exact absurd h0 (by intro h; rw [h] at hs; exact lt_irrefl 0 hs)
  · rw [if_neg hs]
    refine ⟨?_, ?_, ?_, rfl, rfl⟩
    · intro i _ j _ hfoot
      simp only [hfoot, if_pos]
    · intro h
      exact absurd h hs
    · intro h0
      have hnn1 : ∀ i < b.grid_size, ∀ j < b.grid_size,
          0 ≤ (if inFootprint b.grid_size x y w i j then 0 else b.belief i j) := by
        intro i hi j hj
        split
        · exact le_refl 0
        · exact hnn i hi j hj
      exact (gridSum_eq_zero_iff b.grid_size _ hnn1).mp h0

/-- Witness for C3: on a 1×1 grid a negative observation of the (whole-grid)
window eliminates all mass and leaves the degenerate all-zero belief, with
`fire_found` and `fire_location` untouched. -/
theorem negative_observation_zeroes_footprint_witness :
    (∀ i < (BeliefState.init 1).grid_size, ∀ j < (BeliefState.init 1).grid_size,
      ((BeliefState.init 1).update_with_observation (0, 0) 1 false).belief i j = 0) ∧
    ((BeliefState.init 1).update_with_observation (0, 0) 1 false).fire_found
      = (BeliefState.init 1).fire_found ∧
    ((BeliefState.init 1).update_with_observation (0, 0) 1 false).fire_location
      = (BeliefState.init 1).fire_location :=
  have h := negative_observation_zeroes_footprint (BeliefState.init 1) 0 0 1
    (by decide) (by decide) (by intro i _ j _; norm_num [BeliefState.init])
  ⟨h.2.2.1 (by norm_num [gridSum, inFootprint, BeliefState.init]),
   h.2.2.2.1, h.2.2.2.2⟩

/-- **C2.** For every pair of `BeliefState`s and every weight in `[0, 1]`:
if the peer found the fire, the merge adopts its belief, flag and location
outright, regardless of this belief's own prior findings; otherwise the new
belief is the elementwise weighted average, renormalized to sum `1` when
its sum is positive and left as computed when it is zero. -/
theorem merge_adopt_or_weighted_average (b other : BeliefState) (wt : ℚ)
    (hg : other.grid_size = b.grid_size) (h0 : 0 ≤ wt) (h1 : wt ≤ 1) :
    (other.fire_found = true →
      (∀ i j, (b.merge_with_other_belief other wt).belief i j = other.belief i j) ∧
      (b.merge_with_other_belief other wt).fire_found = true ∧
      (b.merge_with_other_belief other wt).fire_location = other.fire_location) ∧
    (other.fire_found = false →
      (0 < gridSum b.grid_size
          (fun i j => wt * b.belief i j + (1 - wt) * other.belief i j) →
        (∀ i j, (b.merge_with_other_belief other wt).belief i j =
          (wt * b.belief i j + (1 - wt) * other.belief i j) /
            gridSum b.grid_size
              (fun i j => wt * b.belief i j + (1 - wt) * other.belief i j)) ∧
        gridSum b.grid_size (b.merge_with_other_belief other wt).belief = 1) ∧
      (gridSum b.grid_size
          (fun i j => wt * b.belief i j + (1 - wt) * other.belief i j) = 0 →
        ∀ i j, (b.merge_with_other_belief other wt).belief i j =
          wt * b.belief i j + (1 - wt) * other.belief i j)) := by
  constructor
  · intro hf
    rw [merge_eq, if_pos (by rw [hf])]
    exact ⟨fun i j => rfl, rfl, rfl⟩
  · intro hf
    rw [merge_eq, if_neg (by rw [hf]; exact Bool.false_ne_true)]
    constructor
    · intro hs
      rw [if_pos hs]
      refine ⟨fun i j => rfl, ?_⟩
      simp only
      rw [gridSum_div, div_self hs.ne']
    · intro h0s
      rw [if_neg (by rw [h0s]; exact lt_irrefl 0)]
      exact fun i j => rfl

/-- Witness for C2: merging a fresh 2×2 uniform belief with a peer that has
found the fire (first branch) is exercised at weight `1/2`; the hypotheses
are discharged on the concrete pair. -/
theorem merge_adopt_or_weighted_average_witness :
    (∀ i j, ((BeliefState.init 2).merge_with_other_belief peerFound2 (1 / 2)).belief i j =
      peerFound2.belief i j) ∧
    ((BeliefState.init 2).merge_with_other_belief peerFound2 (1 / 2)).fire_found = true ∧
    ((BeliefState.init 2).merge_with_other_belief peerFound2 (1 / 2)).fire_location =
      peerFound2.fire_location :=
  (merge_adopt_or_weighted_average (BeliefState.init 2) peerFound2 (1 / 2)
    rfl (by norm_num) (by norm_num)).1 rfl

/-- **C9.** Merging a `BeliefState` with an exact copy of itself leaves the
belief grid numerically unchanged, for any weight in `[0, 1]`.  The
hypothesis `sum = 1 ∨ sum = 0` is the data-model invariant every belief
state maintains (normalized, or degenerate all-zero). -/
theorem self_merge_identity (b : BeliefState) (wt : ℚ)
    (h0 : 0 ≤ wt) (h1 : wt ≤ 1)
    (hsum : gridSum b.grid_size b.belief = 1 ∨ gridSum b.grid_size b.belief = 0) :
    ∀ i j, (b.merge_with_other_belief b wt).belief i j = b.belief i j := by
  have hnb : (fun i j => wt * b.belief i j + (1 - wt) * b.belief i j)
      = fun i j => b.belief i j := by
    funext i j
    ring
  cases hb : b.fire_found
  · rw [merge_eq, if_neg (by rw [hb]; exact Bool.false_ne_true), hnb]
    rcases hsum with hs | hs
    · rw [if_pos (by rw [hs]; norm_num)]
      intro i j
      simp only
      rw [hs, div_one]
      ring
    · rw [if_neg (by rw [hs]; exact lt_irrefl 0)]
      exact fun i j => rfl
  · rw [merge_eq, if_pos (by rw [hb])]
    exact fun i j => rfl

/-- Witness for C9: self-merge of the fresh 1×1 belief (sum `1`) at weight
`1/2` leaves its single cell unchanged. -/
theorem self_merge_identity_witness :
    ((BeliefState.init 1).merge_with_other_belief
        (BeliefState.init 1) (1 / 2)).belief 0 0 = (BeliefState.init 1).belief 0 0 :=
  self_merge_identity (BeliefState.init 1) (1 / 2) (by norm_num) (by norm_num)
    (Or.inl (by norm_num [gridSum, BeliefState.init])) 0 0

/-- `update_with_observation` never assigns `fire_location`. -/
lemma update_preserves_fire_location (b : BeliefState) (pos : Nat × Nat)
    (w : Nat) (fo : Bool) :
    (b.update_with_observation pos w fo).fire_location = b.fire_location := by
  cases fo
  · rw [update_false_eq]
    split <;> rfl
  · rw [update_true_eq]

/-- **C10.** `fire_location` is never assigned by observation updates: any
sequence of `update_with_observation` calls (even ones setting `fire_found`)
leaves `fire_location` as it was, and it is `none` from construction; a
merge whose peer has not found the fire also leaves it unchanged (adoption
from a fire-finding peer is the only assignment). -/
theorem observation_updates_never_set_fire_location (b : BeliefState)
    (updates : List ((Nat × Nat) × Nat × Bool)) (other : BeliefState)
    (wt : ℚ) (N : Nat) :
    (updates.foldl (fun s u => s.update_with_observation u.1 u.2.1 u.2.2) b).fire_location
      = b.fire_location ∧
    (other.fire_found = false →
      (b.merge_with_other_belief other wt).fire_location = b.fire_location) ∧
    (BeliefState.init N).fire_location = none := by
  refine ⟨?_, ?_, rfl⟩
  · induction updates generalizing b with
    | nil => rfl
    | cons u t ih =>
      rw [List.foldl_cons, ih, update_preserves_fire_location]
  · intro hf
    rw [merge_eq, if_neg (by rw [hf]; exact Bool.false_ne_true)]
    split <;> rfl

/-- Witness for C10: two updates on a 3×3 belief (the second a positive
observation that sets `fire_found`) leave `fire_location` at `none`, as
does a merge with a peer that has not found the fire. -/
theorem observation_updates_never_set_fire_location_witness :
    ([((1, 1), 3, false), ((0, 0), 1, true)].foldl
        (fun s u => s.update_with_observation u.1 u.2.1 u.2.2)
        (BeliefState.init 3)).fire_location = (BeliefState.init 3).fire_location ∧
    ((BeliefState.init 3).merge_with_other_belief (BeliefState.init 3)
        (1 / 2)).fire_location = (BeliefState.init 3).fire_location ∧
    (BeliefState.init 4).fire_location = none :=
  ⟨(observation_updates_never_set_fire_location (BeliefState.init 3)
      [((1, 1), 3, false), ((0, 0), 1, true)] (BeliefState.init 3) (1 / 2) 4).1,
   (observation_updates_never_set_fire_location (BeliefState.init 3)
      [((1, 1), 3, false), ((0, 0), 1, true)] (BeliefState.init 3) (1 / 2) 4).2.1 rfl,
   (observation_updates_never_set_fire_location (BeliefState.init 3)
      [((1, 1), 3, false), ((0, 0), 1, true)] (BeliefState.init 3) (1 / 2) 4).2.2⟩

lemma exists_ge_all (l : List ℚ) (h : l ≠ []) : ∃ a ∈ l, ∀ c ∈ l, c ≤ a := by
  induction l with
  | nil => exact absurd rfl h
  | cons a t ih =>
    rcases eq_or_ne t [] with ht | ht
    · subst ht
      refine ⟨a, by simp, ?_⟩
      intro c hc
      simp only [List.mem_singleton] at hc
      exact le_of_eq hc
    · obtain ⟨m, hm, hmax⟩ := ih ht
      rcases le_total a m with hh | hh
      · refine ⟨m, List.mem_cons_of_mem a hm, ?_⟩
        intro c hc
        rcases List.mem_cons.mp hc with h1 | h1
        · exact h1 ▸ hh
        · exact hmax c h1
      · refine ⟨a, by simp, ?_⟩
        intro c hc
        rcases List.mem_cons.mp hc with h1 | h1
        · exact le_of_eq h1
        · exact le_trans (hmax c h1) hh

lemma isListMax_iff (l : List ℚ) (a : ℚ) :
    isListMax l a = true ↔ ∀ c ∈ l, c ≤ a := by
  simp [isListMax, List.all_eq_true]

lemma npArgmax_lt_length (l : List ℚ) (h : l ≠ []) : npArgmax l < l.length := by
  obtain ⟨a, ha, hmax⟩ := exists_ge_all l h
  exact List.findIdx_lt_length_of_exists ⟨a, ha, (isListMax_iff l a).mpr hmax⟩

lemma isListMax_npArgmax (l : List ℚ) (hlt : npArgmax l < l.length) :
    isListMax l (l.get ⟨npArgmax l, hlt⟩) = true :=
  List.findIdx_getElem

lemma npArgmax_min (l : List ℚ) (k : Nat) (hk : k < l.length)
    (h : isListMax l (l.get ⟨k, hk⟩) = true) : npArgmax l ≤ k := by
  by_contra hcon
  push_neg at hcon
  exact absurd (by simpa using h) (by simpa using List.not_of_lt_findIdx hcon)

lemma flattenBelief_length (b : BeliefState) :
    (flattenBelief b).length = b.grid_size * b.grid_size := by
  simp [flattenBelief]

lemma flattenBelief_get (b : BeliefState) (k : Nat)
    (hk : k < (flattenBelief b).length) :
    (flattenBelief b).get ⟨k, hk⟩ =
      b.belief (k / b.grid_size) (k % b.grid_size) := by
  simp [flattenBelief]

lemma flat_index_lt (N i j : Nat) (hi : i < N) (hj : j < N) :
    j + i * N < N * N := by
  have h1 : (i + 1) * N ≤ N * N := Nat.mul_le_mul_right N hi
  have h2 : (i + 1) * N = i * N + N := Nat.succ_mul i N
  omega

/-- **C8.** `get_most_likely_location` returns an in-bounds cell of maximum
probability, and among the cells attaining the maximum it is the first in
row-major order (its flat index `i * N + j` is least). -/
theorem most_likely_location_is_first_row_major_max (b : BeliefState)
    (hN : 1 ≤ b.grid_size) :
    (b.get_most_likely_location.1 < b.grid_size ∧
      b.get_most_likely_location.2 < b.grid_size) ∧
    (∀ i < b.grid_size, ∀ j < b.grid_size,
      b.belief i j ≤
        b.belief b.get_most_likely_location.1 b.get_most_likely_location.2) ∧
    (∀ i < b.grid_size, ∀ j < b.grid_size,
      b.belief b.get_most_likely_location.1 b.get_most_likely_location.2 ≤
          b.belief i j →
        b.get_most_likely_location.1 * b.grid_size + b.get_most_likely_location.2 ≤
          i * b.grid_size + j) := by
  have hNpos : 0 < b.grid_size := hN
  have hlen : (flattenBelief b).length = b.grid_size * b.grid_size :=
    flattenBelief_length b
  have hne : flattenBelief b ≠ [] := by
    apply List.ne_nil_of_length_pos
    rw [hlen]
    exact Nat.mul_pos hNpos hNpos
  have hK : npArgmax (flattenBelief b) < (flattenBelief b).length :=
    npArgmax_lt_length _ hne
  have hKmax := (isListMax_iff _ _).mp (isListMax_npArgmax _ hK)
  have hloc : b.get_most_likely_location =
      (npArgmax (flattenBelief b) / b.grid_size,
       npArgmax (flattenBelief b) % b.grid_size) := rfl
  have hgetK : (flattenBelief b).get ⟨npArgmax (flattenBelief b), hK⟩ =
      b.belief b.get_most_likely_location.1 b.get_most_likely_location.2 := by
    rw [flattenBelief_get, hloc]
  have hcell : ∀ i < b.grid_size, ∀ j < b.grid_size,
      ∃ hm : j + i * b.grid_size < (flattenBelief b).length,
        (flattenBelief b).get ⟨j + i * b.grid_size, hm⟩ = b.belief i j := by
    intro i hi j hj
    have hm : j + i * b.grid_size < (flattenBelief b).length := by
      rw [hlen]
      exact flat_index_lt b.grid_size i j hi hj
    refine ⟨hm, ?_⟩
    rw [flattenBelief_get]
    congr 1
    · rw [Nat.add_mul_div_right j i hNpos, Nat.div_eq_of_lt hj, Nat.zero_add]
    · rw [Nat.add_mul_mod_self_right, Nat.mod_eq_of_lt hj]
  refine ⟨?_, ?_, ?_⟩
  · rw [hloc]
    exact ⟨(Nat.div_lt_iff_lt_mul hNpos).mpr (hlen ▸ hK),
      Nat.mod_lt _ hNpos⟩
  · intro i hi j hj
    obtain ⟨hm, hget⟩ := hcell i hi j hj
    have := hKmax ((flattenBelief b).get ⟨j + i * b.grid_size, hm⟩)
      (List.get_mem _ _ _)
    rw [hget, hgetK] at this
    exact this
  · intro i hi j hj hle
    obtain ⟨hm, hget⟩ := hcell i hi j hj
    have hmx : isListMax (flattenBelief b)
        ((flattenBelief b).get ⟨j + i * b.grid_size, hm⟩) = true := by
      rw [isListMax_iff]
      intro c hc
      calc c ≤ (flattenBelief b).get ⟨npArgmax (flattenBelief b), hK⟩ :=
            hKmax c hc
        _ ≤ (flattenBelief b).get ⟨j + i * b.grid_size, hm⟩ := by
            rw [hget, hgetK]
            exact hle
    have hmin := npArgmax_min (flattenBelief b) (j + i * b.grid_size) hm hmx
    rw [hloc]
    simp only
    rw [Nat.div_add_mod']
    rw [Nat.add_comm] at hmin
    exact hmin

/-- Witness for C8: on the fresh 3×3 uniform belief (all cells tie) the most
likely location is the row-major-first cell. -/
theorem most_likely_location_is_first_row_major_max_witness :
    (((BeliefState.init 3).get_most_likely_location.1 < (BeliefState.init 3).grid_size ∧
      (BeliefState.init 3).get_most_likely_location.2 < (BeliefState.init 3).grid_size)) ∧
    (∀ i < (BeliefState.init 3).grid_size, ∀ j < (BeliefState.init 3).grid_size,
      (BeliefState.init 3).belief i j ≤
        (BeliefState.init 3).belief (BeliefState.init 3).get_most_likely_location.1
          (BeliefState.init 3).get_most_likely_location.2) ∧
    (∀ i < (BeliefState.init 3).grid_size, ∀ j < (BeliefState.init 3).grid_size,
      (BeliefState.init 3).belief (BeliefState.init 3).get_most_likely_location.1
          (BeliefState.init 3).get_most_likely_location.2 ≤
          (BeliefState.init 3).belief i j →
        (BeliefState.init 3).get_most_likely_location.1 * (BeliefState.init 3).grid_size +
            (BeliefState.init 3).get_most_likely_location.2 ≤
          i * (BeliefState.init 3).grid_size + j) :=
  most_likely_location_is_first_row_major_max (BeliefState.init 3) (by decide)

/-- Number of drones whose `action` call returned a telemetry packet this
tick. -/
def commCount (drones : List DroneStep) : Nat :=
  (drones.filter (fun d => d.packet.isSome)).length

/-- Number of drones that returned no packet and chose a non-`stay`
action. -/
def moveCount (drones : List DroneStep) : Nat :=
  (drones.filter (fun d => d.packet.isNone && decide (d.action ≠ 0))).length

lemma actPhase_go (env : EnvState) (l : List DroneStep) :
    ∀ acc : List TelemetryPacket × ℚ × Nat,
      ((List.foldl
        (fun acc d =>
          match d.packet with
          | some p => (acc.1 ++ [p], acc.2.1 + env.communication_cost, acc.2.2 + 1)
          | none =>
            if d.action ≠ 0 then (acc.1, acc.2.1 + env.movement_cost, acc.2.2)
            else acc)
        acc l).2.1
        = acc.2.1 + env.communication_cost * commCount l +
            env.movement_cost * moveCount l) ∧
      ((List.foldl
        (fun acc d =>
          match d.packet with
          | some p => (acc.1 ++ [p], acc.2.1 + env.communication_cost, acc.2.2 + 1)
          | none =>
            if d.action ≠ 0 then (acc.1, acc.2.1 + env.movement_cost, acc.2.2)
            else acc)
        acc l).2.2
        = acc.2.2 + commCount l) := by
  induction l with
  | nil =>
    intro acc
    simp [commCount, moveCount]
  | cons d t ih =>
    intro acc
    rcases hd : d.packet with _ | p
    · by_cases ha : d.action = 0
      · have h1 := ih acc
        simp only [List.foldl_cons, hd, ha, ne_eq, not_true_eq_false, if_false]
        rw [h1.1, h1.2]
        have hc : commCount (d :: t) = commCount t := by
          simp [commCount, List.filter_cons, hd]
        have hm : moveCount (d :: t) = moveCount t := by
          simp [moveCount, List.filter_cons, hd, ha]
        rw [hc, hm]
        exact ⟨rfl, rfl⟩
      · have h1 := ih (acc.1, acc.2.1 + env.movement_cost, acc.2.2)
        simp only [List.foldl_cons, hd, ha, ne_eq, not_false_eq_true, if_true]
        rw [h1.1, h1.2]
        have hc : commCount (d :: t) = commCount t := by
          simp [commCount, List.filter_cons, hd]
        have hm : moveCount (d :: t) = moveCount t + 1 := by
          simp [moveCount, List.filter_cons, hd, ha]
        rw [hc, hm]
        constructor
        · push_cast
          ring
        · rfl
    · have h1 := ih (acc.1 ++ [p], acc.2.1 + env.communication_cost, acc.2.2 + 1)
      simp only [List.foldl_cons, hd]
      rw [h1.1, h1.2]
      have hc : commCount (d :: t) = commCount t + 1 := by
        simp [commCount, List.filter_cons, hd]
      have hm : moveCount (d :: t) = moveCount t := by
        simp [moveCount, List.filter_cons, hd]
      rw [hc, hm]
      constructor
      · push_cast
        ring
      · show acc.2.2 + 1 + commCount t = acc.2.2 + (commCount t + 1)
        omega

lemma terminationScan_cons (d : DroneStep) (l : List DroneStep)
    (fp : Nat × Nat) (st : Bool × Option ℚ) :
    terminationScan (d :: l) fp st =
      terminationScan l fp
        (if d.x = fp.1 ∧ d.y = fp.2 then
          (if st.1 = false then (true, some d.time) else st)
        else st) := by
  simp only [terminationScan, List.foldl_cons]

lemma terminationScan_true (l : List DroneStep) (fp : Nat × Nat)
    (tte : Option ℚ) :
    terminationScan l fp (true, tte) = (true, tte) := by
  induction l with
  | nil => rfl
  | cons d t ih =>
    rw [terminationScan_cons]
    have hstep : (if d.x = fp.1 ∧ d.y = fp.2 then
        (if ((true : Bool), tte).1 = false then (true, some d.time)
          else ((true : Bool), tte))
        else ((true : Bool), tte)) = ((true : Bool), tte) := by
      split <;> rfl
    rw [hstep]
    exact ih

lemma terminationScan_no_hit (l : List DroneStep) (fp : Nat × Nat)
    (st : Bool × Option ℚ)
    (h : ∀ d ∈ l, ¬(d.x = fp.1 ∧ d.y = fp.2)) :
    terminationScan l fp st = st := by
  induction l with
  | nil => rfl
  | cons d t ih =>
    rw [terminationScan_cons, if_neg (h d (by simp))]
    exact ih (fun e he => h e (by simp [he]))

lemma terminationScan_append (l1 l2 : List DroneStep) (fp : Nat × Nat)
    (st : Bool × Option ℚ) :
    terminationScan (l1 ++ l2) fp st =
      terminationScan l2 fp (terminationScan l1 fp st) := by
  simp only [terminationScan, List.foldl_append]

/-- **C4.** The terminal transition of `SearchEnv.step` happens exactly
once: if the fire is already extinguished, re-evaluating the termination
condition changes neither the flag nor the frozen `time_to_extinguish`; if
it is not, the first drone of the list co-located with the fire sets the
flag and freezes `time_to_extinguish` at its clock. -/
theorem termination_transition_latches (env : EnvState)
    (drones pre post : List DroneStep) (d : DroneStep) :
    (env.fire_extinguished = true →
      (SearchEnv.step env drones).1.fire_extinguished = true ∧
      (SearchEnv.step env drones).1.time_to_extinguish = env.time_to_extinguish) ∧
    (env.fire_extinguished = false →
      (∀ e ∈ pre, ¬(e.x = env.fire_pos.1 ∧ e.y = env.fire_pos.2)) →
      d.x = env.fire_pos.1 → d.y = env.fire_pos.2 →
      (SearchEnv.step env (pre ++ d :: post)).1.fire_extinguished = true ∧
      (SearchEnv.step env (pre ++ d :: post)).1.time_to_extinguish = some d.time) := by
  constructor
  · intro h
    have hts : terminationScan drones env.fire_pos
        (env.fire_extinguished, env.time_to_extinguish) =
        (true, env.time_to_extinguish) := by
      rw [h]
      exact terminationScan_true drones env.fire_pos env.time_to_extinguish
    constructor
    · show (terminationScan drones env.fire_pos
        (env.fire_extinguished, env.time_to_extinguish)).1 = true
      rw [hts]
    · show (terminationScan drones env.fire_pos
        (env.fire_extinguished, env.time_to_extinguish)).2 = env.time_to_extinguish
      rw [hts]
  · intro h hpre hx hy
    have hts : terminationScan (pre ++ d :: post) env.fire_pos
        (env.fire_extinguished, env.time_to_extinguish) = (true, some d.time) := by
      rw [h, terminationScan_append,
        terminationScan_no_hit pre env.fire_pos _ hpre,
        terminationScan_cons, if_pos ⟨hx, hy⟩]
      exact terminationScan_true post env.fire_pos (some d.time)
    constructor
    · show (terminationScan (pre ++ d :: post) env.fire_pos
        (env.fire_extinguished, env.time_to_extinguish)).1 = true
      rw [hts]
    · show (terminationScan (pre ++ d :: post) env.fire_pos
        (env.fire_extinguished, env.time_to_extinguish)).2 = some d.time
      rw [hts]

/-- Witness for C4: a step on the already-extinguished `envDone` changes
neither the flag nor the frozen time, and a step on `envFixture` with a
drone co-located with the fire sets the flag and freezes its clock. -/
theorem termination_transition_latches_witness :
    ((SearchEnv.step envDone [hitStep]).1.fire_extinguished = true ∧
      (SearchEnv.step envDone [hitStep]).1.time_to_extinguish =
        envDone.time_to_extinguish) ∧
    ((SearchEnv.step envFixture [hitStep]).1.fire_extinguished = true ∧
      (SearchEnv.step envFixture [hitStep]).1.time_to_extinguish =
        some hitStep.time) :=
  ⟨(termination_transition_latches envDone [hitStep] [] [] hitStep).1 rfl,
   (termination_transition_latches envFixture [hitStep] [] [] hitStep).2
     rfl (by simp) rfl rfl⟩

/-- **C5.** The tick cost returned by `SearchEnv.step` is exactly
`communication_cost` per returned packet plus `movement_cost` per
packet-less non-`stay` action (a packet-less `stay` adds nothing, and no
`movement_cost` is added for a communicating agent); the communication
counter grows by the number of packets and `total_cost` by exactly the
returned tick cost. -/
theorem step_cost_accounting (env : EnvState) (drones : List DroneStep) :
    (SearchEnv.step env drones).2.1 =
      env.communication_cost * (commCount drones : ℚ) +
        env.movement_cost * (moveCount drones : ℚ) ∧
    (SearchEnv.step env drones).1.total_communications =
      env.total_communications + commCount drones ∧
    (SearchEnv.step env drones).1.total_cost =
      env.total_cost + (SearchEnv.step env drones).2.1 := by
  have h := actPhase_go env drones ([], 0, 0)
  refine ⟨?_, ?_, ?_⟩
  · show (actPhase env drones).2.1 = _
    rw [actPhase, h.1, zero_add]
  · show env.total_communications + (actPhase env drones).2.2 = _
    rw [actPhase, h.2, zero_add]
  · rfl

/-- **C6.** `act` returns a `TelemetryPacket` carrying the sender id, the
(post-move) position, the window size, the sensed bit and the updated clock
exactly when the action id is `5` (communicate); every other action id
returns no packet. -/
theorem act_emits_packet_iff_communicate (d : Agent) (a : Nat)
    (fp : Nat × Nat) :
    (d.act 5 fp).2 = some
      { sender_id := d.drone_id, position := (d.x, d.y),
        window_size := d.window_size,
        fire_observed := observeBool d.x d.y d.window_size fp,
        time := d.time + d.dt } ∧
    (a ≠ 5 → (d.act a fp).2 = none) := by
  constructor
  · rfl
  · intro h
    simp [Agent.act, h]

/-- Witness for C6: a concrete agent moving right (action `4`) emits no
packet, while action `5` emits the telemetry packet. -/
theorem act_emits_packet_iff_communicate_witness :
    (agent22.act 5 (4, 4)).2 = some
      { sender_id := agent22.drone_id, position := (agent22.x, agent22.y),
        window_size := agent22.window_size,
        fire_observed := observeBool agent22.x agent22.y agent22.window_size (4, 4),
        time := agent22.time + agent22.dt } ∧
    (agent22.act 4 (4, 4)).2 = none :=
  ⟨(act_emits_packet_iff_communicate agent22 4 (4, 4)).1,
   (act_emits_packet_iff_communicate agent22 4 (4, 4)).2 (by decide)⟩

/-- **C7.** For every drone with an in-bounds position and every action id
in `{0, …, 5}`, the position after `action` is still in `[0, N-1]²`:
movement is clamped at the grid boundary and never wraps, and a move taken
at the boundary leaves that coordinate at `0` or `N - 1`. -/
theorem action_position_in_bounds (d : Drone) (a : Nat) (fp : Nat × Nat)
    (hx : d.x < d.grid_size) (hy : d.y < d.grid_size) (ha : a ≤ 5) :
    ((d.action a fp).x < d.grid_size ∧ (d.action a fp).y < d.grid_size) ∧
    (d.y = d.grid_size - 1 → (d.action 1 fp).y = d.grid_size - 1) ∧
    (d.y = 0 → (d.action 2 fp).y = 0) ∧
    (d.x = 0 → (d.action 3 fp).x = 0) ∧
    (d.x = d.grid_size - 1 → (d.action 4 fp).x = d.grid_size - 1) := by
  have hmove : ∀ act : Nat, (moveAction d.grid_size d.x d.y act).1 < d.grid_size ∧
      (moveAction d.grid_size d.x d.y act).2 < d.grid_size := by
    intro act
    unfold moveAction
    split_ifs <;> exact ⟨by simp only; omega, by simp only; omega⟩
  refine ⟨⟨(hmove a).1, (hmove a).2⟩, ?_, ?_, ?_, ?_⟩
  · intro h
    show min (d.grid_size - 1) (d.y + 1) = d.grid_size - 1
    omega
  · intro h
    show d.y - 1 = 0
    omega
  · intro h
    show d.x - 1 = 0
    omega
  · intro h
    show min (d.grid_size - 1) (d.x + 1) = d.grid_size - 1
    omega

/-- Witness for C7: a drone at the corner `(0, 4)` of a 5×5 grid stays in
bounds under action `1` (up), and the boundary clamps hold. -/
theorem action_position_in_bounds_witness :
    ((drone04.action 1 (2, 2)).x < drone04.grid_size ∧
      (drone04.action 1 (2, 2)).y < drone04.grid_size) ∧
    (drone04.action 1 (2, 2)).y = drone04.grid_size - 1 ∧
    (drone04.action 3 (2, 2)).x = 0 :=
  ⟨(action_position_in_bounds drone04 1 (2, 2) (by decide) (by decide) (by decide)).1,
   (action_position_in_bounds drone04 1 (2, 2) (by decide) (by decide) (by decide)).2.1 rfl,
   (action_position_in_bounds drone04 3 (2, 2) (by decide) (by decide) (by decide)).2.2.2.1 rfl⟩

end BadComms
